import Mathlib

/-!
Shallow embedding of the flow-builder graph editor
(src/src/pages/index.js) and proofs about its specified properties.

The source is a React component; its state (`nodes`, `edges`, `showModal`,
`isEditMode`, `error`, `currentNode`) is modelled as explicit record types,
and each handler becomes a pure function from state to state.  The
`uuidv4()` call in `handleSaveNode` is nondeterministic input and is passed
in as an explicit `newId` argument.  JSON documents handled by
`handleExport` / `handleFileSelect` are modelled by an inductive `Json`
type together with JavaScript truthiness.
-/

namespace FlowBuilder

/-- Canvas position of a node (`position: {x, y}` in the source). -/
structure Position where
  x : Int
  y : Int
deriving DecidableEq

/-- Payload of a node (`data: { label, description }` in the source).
A missing `description` field is modelled as the empty string. -/
structure NodeData where
  label : String
  description : String
deriving DecidableEq

/-- A node of the graph (`{ id, position, data }` in the source). -/
structure Node where
  id : String
  position : Position
  data : NodeData
deriving DecidableEq

/-- An edge of the graph; only the fields the handlers inspect
(`id`, `source`, `target`) are modelled. -/
structure Edge where
  id : String
  source : String
  target : String
deriving DecidableEq

/-- The graph store: the `nodes` and `edges` React state. -/
structure Graph where
  nodes : List Node
  edges : List Edge
deriving DecidableEq

/-- The seed graph the component starts with: one node
`{ id: '1', position: {x:100,y:100}, data: { label: 'Start' } }` and no
edges. -/
def initialGraph : Graph :=
  { nodes := [{ id := "1", position := { x := 100, y := 100 },
                data := { label := "Start", description := "" } }],
    edges := [] }

/-- The edit-mode branch of `handleSaveNode`: map over the nodes, replacing
the `data` of every node whose id matches (spread keeps `id` and
`position`). -/
def updateNode (g : Graph) (id label description : String) : Graph :=
  { g with nodes := g.nodes.map (fun n =>
      if n.id = id then
        { n with data := { label := label, description := description } }
      else n) }

/-- The add-mode branch of `handleSaveNode`: append a node with the fresh
id at `x = 150, y = 100 + 70 * (nodes.length || 1)`.  JavaScript `||`
makes the factor 1 when the store is empty. -/
def addNode (g : Graph) (newId label description : String) : Graph :=
  { g with nodes := g.nodes ++
      [{ id := newId,
         position := { x := 150,
                       y := 100 + 70 * (if g.nodes.length = 0 then 1
                                        else (g.nodes.length : Int)) },
         data := { label := label, description := description } }] }

/-- The body of `handleDeleteNode`: drop the node with the given id and
every edge whose `source` or `target` equals it. -/
def deleteNode (g : Graph) (id : String) : Graph :=
  { nodes := g.nodes.filter (fun n => n.id != id),
    edges := g.edges.filter (fun e => e.source != id && e.target != id) }

/-- `autoArrange`: reposition every node to
`{ x: 100, y: 100 + idx * 80 }` in store order; nothing else changes. -/
def autoArrange (g : Graph) : Graph :=
  { g with nodes := g.nodes.mapIdx (fun idx n =>
      { n with position := { x := 100, y := 100 + (idx : Int) * 80 } }) }

/-- JavaScript `String.prototype.trim()`: strip whitespace from both ends.
Modelled structurally over the character list so that it reduces on
concrete inputs. -/
def jsTrim (s : String) : String :=
  String.mk (((s.data.dropWhile Char.isWhitespace).reverse.dropWhile
    Char.isWhitespace).reverse)

/-- The modal's working copy of a node (`currentNode` state). -/
structure EditBuffer where
  id : String
  label : String
  description : String
deriving DecidableEq

/-- The modal / edit-session state (`showModal`, `isEditMode`, `error`,
`currentNode`). -/
structure Session where
  showModal : Bool
  isEditMode : Bool
  error : String
  currentNode : EditBuffer
deriving DecidableEq

/-- The whole component state relevant to the handlers. -/
structure AppState where
  graph : Graph
  session : Session
deriving DecidableEq

/-- `handleSaveNode`.  If the trimmed label is empty it only sets the
error message and returns; otherwise it clears the error, commits an
update (edit mode) or an append (add mode, with `newId` standing for
`uuidv4()`), and closes the modal. -/
def handleSaveNode (newId : String) (st : AppState) : AppState :=
  if jsTrim st.session.currentNode.label = "" then
    { st with session := { st.session with error := "Label is required" } }
  else if st.session.isEditMode then
    { graph := updateNode st.graph st.session.currentNode.id
        st.session.currentNode.label st.session.currentNode.description,
      session := { st.session with error := "", showModal := false } }
  else
    { graph := addNode st.graph newId st.session.currentNode.label
        st.session.currentNode.description,
      session := { st.session with error := "", showModal := false } }

/-- `handleDeleteNode`: guarded by `isEditMode`; when editing it deletes
the buffered id from the store and closes the modal, otherwise it does
nothing at all. -/
def handleDeleteNode (st : AppState) : AppState :=
  if st.session.isEditMode then
    { graph := deleteNode st.graph st.session.currentNode.id,
      session := { st.session with showModal := false } }
  else
    st

/-- JSON values, the result of `JSON.parse` on an import file. -/
inductive Json where
  | null : Json
  | bool : Bool → Json
  | num : Int → Json
  | str : String → Json
  | arr : List Json → Json
  | obj : List (String × Json) → Json

/-- JavaScript truthiness of a JSON value: `null`, `false`, `0` and the
empty string are falsy; arrays and objects are always truthy. -/
def truthy : Json → Bool
  | Json.null => false
  | Json.bool b => b
  | Json.num n => n != 0
  | Json.str s => s != ""
  | Json.arr _ => true
  | Json.obj _ => true

/-- JavaScript property access `j.key` on a parsed value: a lookup on an
object, `undefined` (here `none`) on everything else except `null`,
whose access throws (handled separately in `handleImport`). -/
def getField (j : Json) (key : String) : Option Json :=
  match j with
  | Json.obj fields => fields.lookup key
  | _ => none

/-- The store as the import path sees it: whatever values were assigned
to the `nodes` and `edges` state, kept as raw JSON (the source installs
`json.nodes` / `json.edges` verbatim, without decoding them). -/
structure JsonStore where
  nodes : Json
  edges : Json

/-- The state touched by `handleFileSelect`: the store plus the `error`
message. -/
structure ImportState where
  store : JsonStore
  error : String

/-- Encoding of a position as produced by `JSON.stringify`. -/
def encodePosition (p : Position) : Json :=
  Json.obj [("x", Json.num p.x), ("y", Json.num p.y)]

/-- Encoding of node data as produced by `JSON.stringify`. -/
def encodeNodeData (d : NodeData) : Json :=
  Json.obj [("label", Json.str d.label), ("description", Json.str d.description)]

/-- Encoding of a node as produced by `JSON.stringify`. -/
def encodeNode (n : Node) : Json :=
  Json.obj [("id", Json.str n.id),
            ("position", encodePosition n.position),
            ("data", encodeNodeData n.data)]

/-- Encoding of an edge as produced by `JSON.stringify`. -/
def encodeEdge (e : Edge) : Json :=
  Json.obj [("id", Json.str e.id),
            ("source", Json.str e.source),
            ("target", Json.str e.target)]

/-- `handleExport`: the document `JSON.stringify({ nodes, edges })`
written to `flow.json`, modelled as its parse tree. -/
def exportDoc (g : Graph) : Json :=
  Json.obj [("nodes", Json.arr (g.nodes.map encodeNode)),
            ("edges", Json.arr (g.edges.map encodeEdge))]

/-- The `reader.onload` body of `handleFileSelect`.  `parsed = none`
models a `JSON.parse` failure (caught, error set).  A parsed `null`
throws on the `json.nodes` access inside the same `try`, so it is also
caught.  Otherwise `if (json.nodes && json.edges)` installs both field
values verbatim, and silently does nothing when the condition is falsy. -/
def handleImport (parsed : Option Json) (st : ImportState) : ImportState :=
  match parsed with
  | none => { st with error := "Invalid JSON file" }
  | some Json.null => { st with error := "Invalid JSON file" }
  | some j =>
    match getField j "nodes", getField j "edges" with
    | some nv, some ev =>
      if truthy nv && truthy ev then
        { store := { nodes := nv, edges := ev }, error := st.error }
      else st
    | _, _ => st

/-- Decoding a position back from JSON (inverse of `encodePosition`). -/
def decodePosition : Json → Option Position
  | Json.obj [("x", Json.num x), ("y", Json.num y)] => some { x := x, y := y }
  | _ => none

/-- Decoding node data back from JSON (inverse of `encodeNodeData`). -/
def decodeNodeData : Json → Option NodeData
  | Json.obj [("label", Json.str l), ("description", Json.str d)] =>
      some { label := l, description := d }
  | _ => none

/-- Decoding a node back from JSON (inverse of `encodeNode`). -/
def decodeNode : Json → Option Node
  | Json.obj [("id", Json.str i), ("position", p), ("data", d)] => do
      let pos ← decodePosition p
      let dat ← decodeNodeData d
      some { id := i, position := pos, data := dat }
  | _ => none

/-- Decoding an edge back from JSON (inverse of `encodeEdge`). -/
def decodeEdge : Json → Option Edge
  | Json.obj [("id", Json.str i), ("source", Json.str s), ("target", Json.str t)] =>
      some { id := i, source := s, target := t }
  | _ => none

/-- Decoding every element of a JSON sequence, failing on the first
undecodable element. -/
def decodeList {α : Type} (f : Json → Option α) : List Json → Option (List α)
  | [] => some []
  | x :: xs => do
      let a ← f x
      let as ← decodeList f xs
      some (a :: as)

/-- Decoding a JSON array of nodes. -/
def decodeNodes : Json → Option (List Node)
  | Json.arr items => decodeList decodeNode items
  | _ => none

/-- Decoding a JSON array of edges. -/
def decodeEdges : Json → Option (List Edge)
  | Json.arr items => decodeList decodeEdge items
  | _ => none

/-- Reading the typed graph back out of the raw store contents. -/
def decodeStore (s : JsonStore) : Option Graph := do
  let ns ← decodeNodes s.nodes
  let es ← decodeEdges s.edges
  some { nodes := ns, edges := es }

/-- The import-path view of the initial component state. -/
def initialImportState : ImportState :=
  { store := { nodes := Json.arr (initialGraph.nodes.map encodeNode),
               edges := Json.arr [] },
    error := "" }

/-- A small concrete graph with two nodes and one edge, used to
instantiate the general theorems below. -/
def sampleGraph : Graph :=
  { nodes := [{ id := "1", position := { x := 100, y := 100 },
                data := { label := "Start", description := "" } },
              { id := "2", position := { x := 150, y := 170 },
                data := { label := "B", description := "b" } }],
    edges := [{ id := "e1", source := "1", target := "2" }] }

/-- A graph holding a dangling edge (as the unvalidated import path can
install): one node, and one edge whose endpoints name no node. -/
def danglingGraph : Graph :=
  { nodes := [{ id := "1", position := { x := 100, y := 100 },
                data := { label := "Start", description := "" } }],
    edges := [{ id := "e", source := "x", target := "y" }] }

/-- A concrete component state with the add-node modal open and a
whitespace-only label in the buffer. -/
def blankLabelState : AppState :=
  { graph := initialGraph,
    session := { showModal := true, isEditMode := false, error := "",
                 currentNode := { id := "", label := "   ", description := "" } } }

/-- Node ids have unique values (the store invariant on ids). -/
def uniqueIds (g : Graph) : Prop :=
  (g.nodes.map Node.id).Nodup

/-- Every edge endpoint names an existing node (referential integrity). -/
def edgesValid (g : Graph) : Prop :=
  ∀ e ∈ g.edges, e.source ∈ g.nodes.map Node.id ∧ e.target ∈ g.nodes.map Node.id

/-! ## Helper lemmas -/

/-- Indexing into `List.mapIdx`. -/
theorem mapIdx_getElem {α β : Type} (f : Nat → α → β) (l : List α) (i : Nat) :
    (l.mapIdx f)[i]? = l[i]?.map (f i) := by
  rcases Nat.lt_or_ge i l.length with h | h
  · have h2 : i < (l.mapIdx f).length := by simpa [List.length_mapIdx] using h
    rw [List.getElem?_eq_getElem h, List.getElem?_eq_getElem h2]
    have hg := List.get_mapIdx l f i h
    simp only [List.get_eq_getElem] at hg
    simp [hg]
  · rw [List.getElem?_eq_none h,
      List.getElem?_eq_none (by simpa [List.length_mapIdx] using h)]
    rfl

/-- `decodeNode` inverts `encodeNode`. -/
theorem decodeNode_encodeNode (n : Node) : decodeNode (encodeNode n) = some n := rfl

/-- `decodeEdge` inverts `encodeEdge`. -/
theorem decodeEdge_encodeEdge (e : Edge) : decodeEdge (encodeEdge e) = some e := rfl

/-- Decoding an encoded node list succeeds elementwise. -/
theorem decodeNodes_encode (l : List Node) :
    decodeNodes (Json.arr (l.map encodeNode)) = some l := by
  simp only [decodeNodes]
  induction l with
  | nil => rfl
  | cons x xs ih => simp [decodeList, decodeNode_encodeNode, ih]

/-- Decoding an encoded edge list succeeds elementwise. -/
theorem decodeEdges_encode (l : List Edge) :
    decodeEdges (Json.arr (l.map encodeEdge)) = some l := by
  simp only [decodeEdges]
  induction l with
  | nil => rfl
  | cons x xs ih => simp [decodeList, decodeEdge_encodeEdge, ih]

/-- Membership in the node list after a delete. -/
theorem mem_nodes_deleteNode (g : Graph) (id : String) (n : Node) :
    n ∈ (deleteNode g id).nodes ↔ n ∈ g.nodes ∧ n.id ≠ id := by
  simp [deleteNode, List.mem_filter]

/-- Membership in the edge list after a delete. -/
theorem mem_edges_deleteNode (g : Graph) (id : String) (e : Edge) :
    e ∈ (deleteNode g id).edges ↔ e ∈ g.edges ∧ e.source ≠ id ∧ e.target ≠ id := by
  simp [deleteNode, List.mem_filter]

/-- One delete step preserves referential integrity. -/
theorem edgesValid_deleteNode {g : Graph} (hg : edgesValid g) (id : String) :
    edgesValid (deleteNode g id) := by
  intro e he
  rw [mem_edges_deleteNode] at he
  obtain ⟨hmem, hs, ht⟩ := he
  obtain ⟨h1, h2⟩ := hg e hmem
  constructor
  · rw [List.mem_map] at h1 ⊢
    obtain ⟨n, hn, hid⟩ := h1
    exact ⟨n, (mem_nodes_deleteNode g id n).2 ⟨hn, by rw [hid]; exact hs⟩, hid⟩
  · rw [List.mem_map] at h2 ⊢
    obtain ⟨n, hn, hid⟩ := h2
    exact ⟨n, (mem_nodes_deleteNode g id n).2 ⟨hn, by rw [hid]; exact ht⟩, hid⟩

/-- Edges only disappear under a sequence of deletes. -/
theorem mem_edges_foldl_deleteNode {ids : List String} {g : Graph} {e : Edge}
    (h : e ∈ (ids.foldl deleteNode g).edges) : e ∈ g.edges := by
  induction ids generalizing g with
  | nil => exact h
  | cons id rest ih =>
    have h2 : e ∈ (rest.foldl deleteNode (deleteNode g id)).edges := h
    exact ((mem_edges_deleteNode g id e).1 (ih h2)).1

/-- No surviving edge references any deleted id. -/
theorem foldl_deleteNode_no_ref (ids : List String) (g : Graph) (e : Edge)
    (h : e ∈ (ids.foldl deleteNode g).edges) :
    ∀ i ∈ ids, e.source ≠ i ∧ e.target ≠ i := by
  induction ids generalizing g with
  | nil => intro i hi; cases hi
  | cons id rest ih =>
    intro i hi
    have h2 : e ∈ (rest.foldl deleteNode (deleteNode g id)).edges := h
    rcases List.mem_cons.1 hi with rfl | hi2
    · have hd := (mem_edges_deleteNode g i e).1 (mem_edges_foldl_deleteNode h2)
      exact ⟨hd.2.1, hd.2.2⟩
    · exact ih (deleteNode g id) h2 i hi2

/-- Referential integrity is preserved by any delete sequence. -/
theorem edgesValid_foldl_deleteNode {g : Graph} (hg : edgesValid g)
    (ids : List String) : edgesValid (ids.foldl deleteNode g) := by
  induction ids generalizing g with
  | nil => exact hg
  | cons id rest ih => exact ih (edgesValid_deleteNode hg id)

/-- Mapping the update function over nodes none of which match is the
identity. -/
theorem map_update_no_match {id label description : String} :
    ∀ l : List Node, (∀ n ∈ l, n.id ≠ id) →
      l.map (fun n => if n.id = id then
        { n with data := { label := label, description := description } }
      else n) = l := by
  intro l h
  induction l with
  | nil => rfl
  | cons x xs ih =>
    have hx : x.id ≠ id := h x (List.mem_cons_self x xs)
    simp only [List.map_cons, if_neg hx]
    rw [ih (fun n hn => h n (List.mem_cons_of_mem x hn))]

/-! ## Claim theorems -/

/-- Claim C1: for a graph with unique node ids and structurally valid
edges, importing the exported document installs exactly the exported
`nodes` and `edges` values in the store whatever the prior store held
(wholesale replacement, no merge), and decoding the installed store
contents yields a graph equal to the original. -/
theorem export_import_roundtrip (g : Graph) (st : ImportState)
    (h1 : uniqueIds g) (h2 : edgesValid g) :
    handleImport (some (exportDoc g)) st =
      { store := { nodes := Json.arr (g.nodes.map encodeNode),
                   edges := Json.arr (g.edges.map encodeEdge) },
        error := st.error } ∧
    decodeStore (handleImport (some (exportDoc g)) st).store = some g := by
  have hrepl : handleImport (some (exportDoc g)) st =
      { store := { nodes := Json.arr (g.nodes.map encodeNode),
                   edges := Json.arr (g.edges.map encodeEdge) },
        error := st.error } := rfl
  refine ⟨hrepl, ?_⟩
  rw [hrepl]
  simp [decodeStore, decodeNodes_encode, decodeEdges_encode]

/-- Witness for the round-trip theorem at a concrete two-node graph. -/
theorem export_import_roundtrip_witness :
    uniqueIds sampleGraph ∧ edgesValid sampleGraph ∧
    (handleImport (some (exportDoc sampleGraph)) initialImportState =
      { store := { nodes := Json.arr (sampleGraph.nodes.map encodeNode),
                   edges := Json.arr (sampleGraph.edges.map encodeEdge) },
        error := initialImportState.error } ∧
     decodeStore
       (handleImport (some (exportDoc sampleGraph)) initialImportState).store
       = some sampleGraph) :=
  ⟨by unfold uniqueIds; decide, by unfold edgesValid; decide,
   export_import_roundtrip sampleGraph initialImportState
     (by unfold uniqueIds; decide) (by unfold edgesValid; decide)⟩

/-- Claim C2 (amended): `deleteNode` removes exactly the nodes carrying
the id and exactly the edges touching it; after any sequence of deletes
no surviving edge references a deleted id; and when the starting graph
satisfies edge referential integrity, integrity still holds after any
sequence of deletes. -/
theorem deleteNode_cascade_integrity (g : Graph) (id : String) :
    (∀ n, n ∈ (deleteNode g id).nodes ↔ n ∈ g.nodes ∧ n.id ≠ id) ∧
    (∀ e, e ∈ (deleteNode g id).edges ↔
      e ∈ g.edges ∧ e.source ≠ id ∧ e.target ≠ id) ∧
    (∀ ids : List String, ∀ e ∈ (ids.foldl deleteNode g).edges,
      ∀ i ∈ ids, e.source ≠ i ∧ e.target ≠ i) ∧
    (edgesValid g → ∀ ids : List String,
      edgesValid (ids.foldl deleteNode g)) := by
  refine ⟨mem_nodes_deleteNode g id, mem_edges_deleteNode g id, ?_, ?_⟩
  · intro ids e he
    exact foldl_deleteNode_no_ref ids g e he
  · intro hg ids
    exact edgesValid_foldl_deleteNode hg ids

/-- Witness: integrity before and after deleting node "1" from the sample
graph. -/
theorem deleteNode_cascade_integrity_witness :
    edgesValid sampleGraph ∧ edgesValid (["1"].foldl deleteNode sampleGraph) :=
  ⟨by unfold edgesValid; decide,
   (deleteNode_cascade_integrity sampleGraph "1").2.2.2
     (by unfold edgesValid; decide) ["1"]⟩

/-- Counterexample to claim C2 as stated over every graph state: starting
from a graph holding a dangling edge (installable through the
unvalidated import path), the delete sequence ["1"] leaves an edge whose
source
references no surviving node. -/
theorem deleteNode_dangling_counterexample :
    (["1"].foldl deleteNode danglingGraph).nodes = [] ∧
    (["1"].foldl deleteNode danglingGraph).edges =
      [{ id := "e", source := "x", target := "y" }] ∧
    ¬ ("x" ∈ (["1"].foldl deleteNode danglingGraph).nodes.map Node.id) := by
  refine ⟨rfl, rfl, ?_⟩
  decide

/-- Counterexample to claim C3 as stated: adding to an empty store places
the node at y = 170 (the `nodes.length || 1` fallback), not at
y = 100 + 70 * 0 = 100. -/
theorem addNode_empty_counterexample :
    ((addNode { nodes := [], edges := [] } "2" "B" "").nodes.map
      (fun n => n.position.y)) = [170] ∧ (170 : Int) ≠ 100 + 70 * 0 := by
  refine ⟨rfl, ?_⟩
  decide

/-- Claim C3 (amended): `addNode` leaves the edges and the existing nodes
unchanged and appends exactly one node at x = 150 and
y = 100 + 70 * currentNodeCount, except that an empty store yields
y = 170 (the count falls back to 1 under JavaScript `||`). -/
theorem addNode_appends_cascade (g : Graph) (newId label description : String) :
    (addNode g newId label description).edges = g.edges ∧
    (addNode g newId label description).nodes.length = g.nodes.length + 1 ∧
    (addNode g newId label description).nodes.take g.nodes.length = g.nodes ∧
    (addNode g newId label description).nodes.getLast? =
      some { id := newId,
             position := { x := 150,
                           y := if g.nodes.length = 0 then 170
                                else 100 + 70 * (g.nodes.length : Int) },
             data := { label := label, description := description } } := by
  refine ⟨rfl, ?_, ?_, ?_⟩
  · simp [addNode]
  · simp [addNode, List.take_left]
  · by_cases h : g.nodes.length = 0 <;> simp [addNode, h]

/-- Claim C4 (amended): importing a parseable non-null document that
lacks a `nodes` field or lacks an `edges` field leaves the whole import
state unchanged — the store keeps its contents and, contrary to the
claim, no error is reported (the branch is silently skipped).  A parsed
`null` document also leaves the store unchanged but reports the parse
error message. -/
theorem import_missing_field_silent (j : Json) (st : ImportState)
    (h : getField j "nodes" = none ∨ getField j "edges" = none) :
    (j ≠ Json.null → handleImport (some j) st = st) ∧
    (handleImport (some Json.null) st).store = st.store ∧
    (handleImport (some Json.null) st).error = "Invalid JSON file" := by
  refine ⟨?_, rfl, rfl⟩
  intro hne
  cases j with
  | null => exact absurd rfl hne
  | bool b => rfl
  | num n => rfl
  | str s => rfl
  | arr l => rfl
  | obj fields =>
      rcases h with h | h
      · cases he : getField (Json.obj fields) "edges" <;>
          simp [handleImport, h, he]
      · cases hn : getField (Json.obj fields) "nodes" <;>
          simp [handleImport, hn, h]

/-- Witness: a document carrying only an `edges` field is silently
ignored, leaving the initial import state intact. -/
theorem import_missing_field_silent_witness :
    getField (Json.obj [("edges", Json.arr [])]) "nodes" = none ∧
    (Json.obj [("edges", Json.arr [])] ≠ Json.null →
      handleImport (some (Json.obj [("edges", Json.arr [])]))
        initialImportState = initialImportState) :=
  ⟨rfl, (import_missing_field_silent (Json.obj [("edges", Json.arr [])])
    initialImportState (Or.inl rfl)).1⟩

/-- Counterexample to claim C4 as stated: a parseable document missing
the `nodes` field leaves the state with its error message still empty —
no ValidationError is surfaced to the user. -/
theorem import_missing_nodes_counterexample :
    handleImport (some (Json.obj [("edges", Json.arr [])])) initialImportState
      = initialImportState ∧
    initialImportState.error = "" := ⟨rfl, rfl⟩

/-- Claim C5: saving with a label that trims to the empty string changes
neither the graph nor the modal visibility, mode, or buffer, and surfaces
the message "Label is required". -/
theorem save_blank_label_rejected (newId : String) (st : AppState)
    (h : jsTrim st.session.currentNode.label = "") :
    (handleSaveNode newId st).graph = st.graph ∧
    (handleSaveNode newId st).session.showModal = st.session.showModal ∧
    (handleSaveNode newId st).session.isEditMode = st.session.isEditMode ∧
    (handleSaveNode newId st).session.currentNode = st.session.currentNode ∧
    (handleSaveNode newId st).session.error = "Label is required" := by
  simp [handleSaveNode, h]

/-- Witness: saving a whitespace-only label from the open add modal is
rejected in place. -/
theorem save_blank_label_rejected_witness :
    jsTrim blankLabelState.session.currentNode.label = "" ∧
    ((handleSaveNode "9" blankLabelState).graph = blankLabelState.graph ∧
     (handleSaveNode "9" blankLabelState).session.showModal =
       blankLabelState.session.showModal ∧
     (handleSaveNode "9" blankLabelState).session.isEditMode =
       blankLabelState.session.isEditMode ∧
     (handleSaveNode "9" blankLabelState).session.currentNode =
       blankLabelState.session.currentNode ∧
     (handleSaveNode "9" blankLabelState).session.error = "Label is required") :=
  ⟨by decide, save_blank_label_rejected "9" blankLabelState (by decide)⟩

/-- Claim C6: for an existing node id, `updateNode` keeps the edges, the
node count, every node's id and position, and every node whose id
differs; the matching position's node only has its data replaced by the
new label and description. -/
theorem updateNode_frame (g : Graph) (id label description : String)
    (hex : ∃ n ∈ g.nodes, n.id = id) :
    (updateNode g id label description).edges = g.edges ∧
    (updateNode g id label description).nodes.length = g.nodes.length ∧
    (∀ i : Nat, (updateNode g id label description).nodes[i]?.map Node.id =
      g.nodes[i]?.map Node.id) ∧
    (∀ i : Nat,
      (updateNode g id label description).nodes[i]?.map Node.position =
      g.nodes[i]?.map Node.position) ∧
    (∀ (i : Nat) (n : Node), g.nodes[i]? = some n → n.id ≠ id →
      (updateNode g id label description).nodes[i]? = some n) ∧
    (∀ (i : Nat) (n : Node), g.nodes[i]? = some n → n.id = id →
      (updateNode g id label description).nodes[i]? =
        some { n with data := { label := label, description := description } }) := by
  have hmap : (updateNode g id label description).nodes = g.nodes.map
      (fun n => if n.id = id then
        { n with data := { label := label, description := description } }
      else n) := rfl
  refine ⟨rfl, by simp [hmap], ?_, ?_, ?_, ?_⟩
  · intro i
    rw [hmap, List.getElem?_map]
    cases g.nodes[i]? with
    | none => rfl
    | some n => by_cases hc : n.id = id <;> simp [hc]
  · intro i
    rw [hmap, List.getElem?_map]
    cases g.nodes[i]? with
    | none => rfl
    | some n => by_cases hc : n.id = id <;> simp [hc]
  · intro i n hn hne
    rw [hmap, List.getElem?_map, hn]
    simp [hne]
  · intro i n hn heq
    rw [hmap, List.getElem?_map, hn]
    simp [heq]

/-- Witness: updating node "1" of the sample graph. -/
theorem updateNode_frame_witness :
    (∃ n ∈ sampleGraph.nodes, n.id = "1") ∧
    ((updateNode sampleGraph "1" "New" "d").edges = sampleGraph.edges ∧
     (updateNode sampleGraph "1" "New" "d").nodes.length =
       sampleGraph.nodes.length ∧
     (∀ i : Nat, (updateNode sampleGraph "1" "New" "d").nodes[i]?.map Node.id =
       sampleGraph.nodes[i]?.map Node.id) ∧
     (∀ i : Nat,
       (updateNode sampleGraph "1" "New" "d").nodes[i]?.map Node.position =
       sampleGraph.nodes[i]?.map Node.position) ∧
     (∀ (i : Nat) (n : Node), sampleGraph.nodes[i]? = some n → n.id ≠ "1" →
       (updateNode sampleGraph "1" "New" "d").nodes[i]? = some n) ∧
     (∀ (i : Nat) (n : Node), sampleGraph.nodes[i]? = some n → n.id = "1" →
       (updateNode sampleGraph "1" "New" "d").nodes[i]? =
         some { n with data := { label := "New", description := "d" } })) :=
  ⟨by decide, updateNode_frame sampleGraph "1" "New" "d" (by decide)⟩

/-- Claim C7: `autoArrange` keeps the edges, the node count, every node's
id and data (hence the store order of nodes), assigns every node the
position x = 100, y = 100 + index * 80, and is idempotent. -/
theorem autoArrange_layout_idempotent (g : Graph) :
    (autoArrange g).edges = g.edges ∧
    (autoArrange g).nodes.length = g.nodes.length ∧
    (∀ i : Nat, (autoArrange g).nodes[i]?.map Node.id =
      g.nodes[i]?.map Node.id) ∧
    (∀ i : Nat, (autoArrange g).nodes[i]?.map Node.data =
      g.nodes[i]?.map Node.data) ∧
    (∀ i : Nat, (autoArrange g).nodes[i]?.map Node.position =
      g.nodes[i]?.map (fun _ =>
        ({ x := 100, y := 100 + (i : Int) * 80 } : Position))) ∧
    autoArrange (autoArrange g) = autoArrange g := by
  have hmap : ∀ h : Graph, (autoArrange h).nodes = h.nodes.mapIdx
      (fun idx n =>
        { n with position := { x := 100, y := 100 + (idx : Int) * 80 } }) :=
    fun h => rfl
  refine ⟨rfl, by simp [hmap, List.length_mapIdx], ?_, ?_, ?_, ?_⟩
  · intro i
    rw [hmap, mapIdx_getElem]
    cases g.nodes[i]? <;> rfl
  · intro i
    rw [hmap, mapIdx_getElem]
    cases g.nodes[i]? <;> rfl
  · intro i
    rw [hmap, mapIdx_getElem]
    cases g.nodes[i]? <;> rfl
  · have hnodes : (autoArrange (autoArrange g)).nodes = (autoArrange g).nodes := by
      apply List.ext_getElem?
      intro i
      rw [hmap (autoArrange g), mapIdx_getElem, hmap g, mapIdx_getElem]
      cases g.nodes[i]? <;> rfl
    calc autoArrange (autoArrange g)
        = { autoArrange g with nodes := (autoArrange (autoArrange g)).nodes } :=
          rfl
      _ = autoArrange g := by rw [hnodes]

/-- Claim C8 (amended): for an id carried by no node, `updateNode` is a
strict no-op, `deleteNode` leaves the node list unchanged, and — provided
the graph satisfies edge referential integrity — `deleteNode` is a strict
no-op on the whole store as well. -/
theorem missing_id_noop (g : Graph) (id label description : String)
    (h : ∀ n ∈ g.nodes, n.id ≠ id) :
    updateNode g id label description = g ∧
    (deleteNode g id).nodes = g.nodes ∧
    (edgesValid g → deleteNode g id = g) := by
  have hnodes : g.nodes.filter (fun n => n.id != id) = g.nodes := by
    rw [List.filter_eq_self]
    intro n hn
    simpa using h n hn
  refine ⟨?_, hnodes, ?_⟩
  · unfold updateNode
    rw [map_update_no_match g.nodes h]
  · intro hv
    have hedges : g.edges.filter
        (fun e => e.source != id && e.target != id) = g.edges := by
      rw [List.filter_eq_self]
      intro e he
      obtain ⟨h1, h2⟩ := hv e he
      have hs : e.source ≠ id := by
        rw [List.mem_map] at h1
        obtain ⟨n, hn2, hid⟩ := h1
        rw [← hid]
        exact h n hn2
      have ht : e.target ≠ id := by
        rw [List.mem_map] at h2
        obtain ⟨n, hn2, hid⟩ := h2
        rw [← hid]
        exact h n hn2
      simp [hs, ht]
    unfold deleteNode
    rw [hnodes, hedges]

/-- Witness: updating or deleting the absent id "z" in the sample graph
is a no-op. -/
theorem missing_id_noop_witness :
    (∀ n ∈ sampleGraph.nodes, n.id ≠ "z") ∧
    (updateNode sampleGraph "z" "L" "D" = sampleGraph ∧
     (deleteNode sampleGraph "z").nodes = sampleGraph.nodes ∧
     (edgesValid sampleGraph → deleteNode sampleGraph "z" = sampleGraph)) :=
  ⟨by decide, missing_id_noop sampleGraph "z" "L" "D" (by decide)⟩

/-- Counterexample to claim C8 as stated over every graph state: with a
dangling edge in the store (installable through the unvalidated import
path), deleting the absent id "x" mutates the store by removing that
edge. -/
theorem delete_absent_id_counterexample :
    (∀ n ∈ danglingGraph.nodes, n.id ≠ "x") ∧
    deleteNode danglingGraph "x" ≠ danglingGraph := by
  refine ⟨by decide, ?_⟩
  decide

/-- Claim C9: a parsed document whose `nodes` and `edges` fields are both
present and truthy has those field values installed in the store verbatim
(no validation of their shape), while a present-but-falsy field makes
the import a silent no-op. -/
theorem import_installs_verbatim (j : Json) (st : ImportState) (nv ev : Json)
    (hn : getField j "nodes" = some nv) (he : getField j "edges" = some ev) :
    (truthy nv = true → truthy ev = true →
      handleImport (some j) st =
        { store := { nodes := nv, edges := ev }, error := st.error }) ∧
    (truthy nv = false ∨ truthy ev = false → handleImport (some j) st = st) := by
  cases j with
  | null => simp [getField] at hn
  | bool b => simp [getField] at hn
  | num n => simp [getField] at hn
  | str s => simp [getField] at hn
  | arr l => simp [getField] at hn
  | obj fields =>
      constructor
      · intro h1 h2
        simp [handleImport, hn, he, h1, h2]
      · intro hfalsy
        rcases hfalsy with h1 | h1 <;> simp [handleImport, hn, he, h1]

/-- Witness: a document whose `nodes` field is the number 5 and whose
`edges` field is a string is accepted and installed verbatim. -/
theorem import_installs_verbatim_witness :
    handleImport
        (some (Json.obj [("nodes", Json.num 5), ("edges", Json.str "x")]))
        initialImportState =
      { store := { nodes := Json.num 5, edges := Json.str "x" },
        error := initialImportState.error } :=
  (import_installs_verbatim
    (Json.obj [("nodes", Json.num 5), ("edges", Json.str "x")])
    initialImportState (Json.num 5) (Json.str "x") rfl rfl).1 rfl rfl

/-- Claim C10: with the modal open in add mode (not editing), the Delete
action changes nothing: the whole state is kept and the modal stays
open. -/
theorem delete_while_adding_noop (st : AppState)
    (hmodal : st.session.showModal = true)
    (hmode : st.session.isEditMode = false) :
    handleDeleteNode st = st ∧ (handleDeleteNode st).session.showModal = true := by
  have h : handleDeleteNode st = st := by
    simp [handleDeleteNode, hmode]
  exact ⟨h, by rw [h, hmodal]⟩

/-- Witness: the Delete button while adding a new node leaves the
concrete add-mode state untouched. -/
theorem delete_while_adding_noop_witness :
    blankLabelState.session.showModal = true ∧
    blankLabelState.session.isEditMode = false ∧
    (handleDeleteNode blankLabelState = blankLabelState ∧
     (handleDeleteNode blankLabelState).session.showModal = true) :=
  ⟨rfl, rfl, delete_while_adding_noop blankLabelState rfl rfl⟩

end FlowBuilder
